import Mathlib

/-!
Verification development for the webhook rule-evaluation engine.

The Go sources embedded here are `hook/rules.go` (rule evaluator, parameter
resolver, argument resolver, signature verifier) and the hook-extraction file
(`hook.go`): `Hook.ParseJSONParameters`, `Hook.ExtractCommandArguments`,
`Hook.ExtractCommandArgumentsForEnv`.

Conventions of the embedding:
- Go `interface{}` trees (decoded headers / query / payload) are the
  inductive `Value` below.  A Go `nil` interface is `Value.null` (decoded
  JSON `null` is a nil interface, so the two coincide).
- Go run-time panics (failed interface type assertions, out-of-range slice
  indexing) are modelled as `Option.none` results: a function that can panic
  returns `Option α`, and `none` means the Go code panics on that input.
- Machine integers: `strconv.ParseUint(_, 10, 64)` yields a `Nat` below
  `2 ^ 64`; the Go conversion `int(index)` is `intOfUint64`, which wraps to a
  negative `Int` for values at or beyond `2 ^ 63`.
- Recursion over dot-separated paths loses at least one character of the
  path per recursive call, so the explicit `fuel` counter (started at
  `path length + 1` by the wrappers) never reaches zero on the recursive
  calls; it only makes the recursion structural so that terms reduce.
-/

namespace Webhook

/-- A decoded value tree: models a Go `interface{}` holding `nil`, `string`,
`json.Number` (integer literals, which cover every tree in this
development), `bool`, `[]interface{}`, or `map[string]interface{}` (as an
association list whose keys are unique in any decoded tree). -/
inductive Value where
  | null
  | str (s : String)
  | num (n : Int)
  | bool (b : Bool)
  | arr (elems : List Value)
  | map (entries : List (String × Value))

/-- Entries of a Go `map[string]interface{}`. -/
abbrev Entries := List (String × Value)

/-- First-match association-list lookup, modelling Go map indexing. -/
def lookupEntry : Entries → String → Option Value
  | [], _ => none
  | (k, v) :: rest, key => if k = key then some v else lookupEntry rest key

/-- Replace the value stored under an existing key, modelling Go map
assignment on a key that is already present. -/
def setEntry : Entries → String → Value → Entries
  | [], _, _ => []
  | (k, v) :: rest, key, value =>
    if k = key then (k, value) :: rest else (k, v) :: setEntry rest key value

/-- Models `strings.SplitN(s, ".", 2)`: the first component is everything
before the first dot; the second is `some rest` when a dot occurs. -/
def splitDot : List Char → List Char × Option (List Char)
  | [] => ([], none)
  | c :: cs =>
    if c = '.' then ([], some cs)
    else
      let r := splitDot cs
      (c :: r.1, r.2)

/-- Value of a decimal digit character. -/
def digitVal (c : Char) : Nat := c.toNat - 48

/-- Models `strconv.ParseUint(s, 10, 64)`: succeeds exactly on a nonempty
all-digit string whose value fits in 64 bits (Go reports an error both for
syntax and for range overflow, and the caller only checks `err != nil`). -/
def parseUint64 (cs : List Char) : Option Nat :=
  if cs.isEmpty then none
  else if cs.all Char.isDigit then
    let n := cs.foldl (fun acc c => acc * 10 + digitVal c) 0
    if n < 18446744073709551616 then some n else none
  else none

/-- The Go conversion `int(index)` for a `uint64` index: two-complement
wrap-around, negative for values at or beyond `2 ^ 63`. -/
def intOfUint64 (n : Nat) : Int :=
  if n < 9223372036854775808 then (n : Int) else (n : Int) - 18446744073709551616

/-- Core of `GetParameter` (rules.go lines 253-298), structurally recursive
on `fuel`.  Branches, in source order:
nil check; Slice kind (dotted: parse index, recurse; terminal: parse index,
return element — an index that passes the wrapped-int bounds check but is
out of range panics, `none`); dotted Map (guarded by a `reflect.Map` kind
check, non-maps soft-fail); terminal map lookup — on a non-map this branch
runs an unguarded type assertion `params.(map[string]interface{})`, which
panics (`none`). -/
def getParameterAux : Nat → List Char → Value → Option (Value × Bool)
  | 0, _, _ => none
  | fuel + 1, s, params =>
    match params with
    | .null => some (.null, false)
    | .arr elems =>
      if elems.length > 0 then
        match splitDot s with
        | (p0, some rest) =>
          match parseUint64 p0 with
          | none => some (.null, false)
          | some index =>
            if (elems.length : Int) ≤ intOfUint64 index then some (.null, false)
            else if h : index < elems.length then getParameterAux fuel rest elems[index]
            else none
        | (p0, none) =>
          match parseUint64 p0 with
          | none => some (.null, false)
          | some index =>
            if (elems.length : Int) ≤ intOfUint64 index then some (.null, false)
            else if h : index < elems.length then some (elems[index], true)
            else none
      else some (.null, false)
    | .map entries =>
      match splitDot s with
      | (p0, some rest) =>
        match lookupEntry entries (String.mk p0) with
        | some pValue => getParameterAux fuel rest pValue
        | none => some (.null, false)
      | (p0, none) =>
        match lookupEntry entries (String.mk p0) with
        | some pValue => some (pValue, true)
        | none => some (.null, false)
    | _ =>
      match splitDot s with
      | (_, some _) => some (.null, false)
      | (_, none) => none

/-- `GetParameter` (rules.go 253-298): extract a value from a tree by a
dot-separated path.  `none` marks a Go panic. -/
def GetParameter (s : String) (params : Value) : Option (Value × Bool) :=
  getParameterAux (s.data.length + 1) s.data params

/-- The `params interface{}` argument of `ReplaceParameter`: the documented
top-level call passes a `*map[string]interface{}` (`ptr`); recursive calls
pass plain values (`val`). -/
inductive GoParams where
  | ptr (entries : Entries)
  | val (v : Value)

/-- Core of `ReplaceParameter` (rules.go 216-250), structurally recursive on
`fuel`.  Branches, in source order: nil check; Slice kind (dotted: recurse
into the element; otherwise `false`); dotted case — the source runs
`params.(map[string]interface{})[p[0]]` with no kind guard, so it panics
(`none`) unless the value is a plain map; terminal case — the source runs
`(*params.(*map[string]interface{}))[p[0]]`, so it panics (`none`) unless
the value is a `*map`, and otherwise sets the key only if it already
exists.  The post-state is threaded explicitly (Go mutates in place). -/
def replaceParameterAux : Nat → List Char → GoParams → Value → Option (Bool × GoParams)
  | 0, _, _, _ => none
  | fuel + 1, s, params, value =>
    match params with
    | .val .null => some (false, .val .null)
    | .val (.arr elems) =>
      if elems.length > 0 then
        match splitDot s with
        | (p0, some rest) =>
          match parseUint64 p0 with
          | none => some (false, .val (.arr elems))
          | some index =>
            if (elems.length : Int) ≤ intOfUint64 index then some (false, .val (.arr elems))
            else if h : index < elems.length then
              match replaceParameterAux fuel rest (.val elems[index]) value with
              | none => none
              | some (b, .val child) => some (b, .val (.arr (elems.set index child)))
              | some (b, .ptr _) => some (b, .val (.arr elems))
            else none
        | (_, none) => some (false, .val (.arr elems))
      else some (false, .val (.arr elems))
    | _ =>
      match splitDot s with
      | (p0, some rest) =>
        match params with
        | .val (.map entries) =>
          match lookupEntry entries (String.mk p0) with
          | some pValue =>
            match replaceParameterAux fuel rest (.val pValue) value with
            | none => none
            | some (b, .val child) => some (b, .val (.map (setEntry entries (String.mk p0) child)))
            | some (b, .ptr _) => some (b, .val (.map entries))
          | none => some (false, .val (.map entries))
        | _ => none
      | (p0, none) =>
        match params with
        | .ptr entries =>
          if (lookupEntry entries (String.mk p0)).isSome then some (true, .ptr (setEntry entries (String.mk p0) value))
          else some (false, .ptr entries)
        | _ => none

/-- `ReplaceParameter` (rules.go 216-250): set the value at a dot-separated
path, only when the final key already exists.  `none` marks a Go panic. -/
def ReplaceParameter (s : String) (params : GoParams) (value : Value) : Option (Bool × GoParams) :=
  replaceParameterAux (s.data.length + 1) s.data params value

/-- An `Argument` (rules.go 310-313): a parameter source and a key name. -/
structure Argument where
  Source : String
  Name : String
deriving DecidableEq

/-- The error values of the hook package (rules.go 146-192) together with
the error of a failed regular-expression compile, which `MatchRule.Evaluate`
can propagate out of `regexp.MatchString`. -/
inductive HookError where
  | signature (sig : String)
  | argument (a : Argument)
  | source (a : Argument)
  | parse
  | regex (pattern : String)
deriving DecidableEq

/-- Reduce modulo `2 ^ 32` (Go `uint32` arithmetic). -/
def u32 (x : Nat) : Nat := x % 4294967296

/-- Rotate a 32-bit word left by `n` bits. -/
def rotl32 (n x : Nat) : Nat := ((x <<< n) ||| (x >>> (32 - n))) % 4294967296

/-- Big-endian bytes of a 32-bit word. -/
def be32 (n : Nat) : List Nat :=
  [(n >>> 24) &&& 255, (n >>> 16) &&& 255, (n >>> 8) &&& 255, n &&& 255]

/-- Big-endian bytes of a 64-bit length field. -/
def be64 (n : Nat) : List Nat :=
  [(n >>> 56) &&& 255, (n >>> 48) &&& 255, (n >>> 40) &&& 255, (n >>> 32) &&& 255,
   (n >>> 24) &&& 255, (n >>> 16) &&& 255, (n >>> 8) &&& 255, n &&& 255]

/-- Big-endian 32-bit words of a 64-byte chunk. -/
def bytesToWords : List Nat → List Nat
  | a :: b :: c :: d :: rest => (((a * 256 + b) * 256 + c) * 256 + d) :: bytesToWords rest
  | _ => []

/-- The SHA-1 round function. -/
def sha1F (t b c d : Nat) : Nat :=
  if t < 20 then (b &&& c) ||| ((4294967295 - b) &&& d)
  else if t < 40 then b ^^^ c ^^^ d
  else if t < 60 then (b &&& c) ||| (b &&& d) ||| (c &&& d)
  else b ^^^ c ^^^ d

/-- The SHA-1 round constants. -/
def sha1K (t : Nat) : Nat :=
  if t < 20 then 1518500249
  else if t < 40 then 1859775393
  else if t < 60 then 2400959708
  else 3395469782

/-- One SHA-1 compression: extend 16 words to 80 and run 80 rounds. -/
def sha1Compress (h : Nat × Nat × Nat × Nat × Nat) (chunk : List Nat) : Nat × Nat × Nat × Nat × Nat :=
  let w := (List.range 64).foldl
    (fun w i =>
      w ++ [rotl32 1 ((w.getD (i + 13) 0) ^^^ (w.getD (i + 8) 0) ^^^ (w.getD (i + 2) 0) ^^^ (w.getD i 0))])
    (bytesToWords chunk)
  let (h0, h1, h2, h3, h4) := h
  let (a, b, c, d, e) := (List.range 80).foldl
    (fun st t =>
      let (a, b, c, d, e) := st
      let temp := u32 (rotl32 5 a + sha1F t b c d + e + w.getD t 0 + sha1K t)
      (temp, a, rotl32 30 b, c, d))
    (h0, h1, h2, h3, h4)
  (u32 (h0 + a), u32 (h1 + b), u32 (h2 + c), u32 (h3 + d), u32 (h4 + e))

/-- Split into 64-byte chunks (`fuel` bounds the number of chunks; callers
pass the list length, which always suffices). -/
def chunks64 : Nat → List Nat → List (List Nat)
  | 0, _ => []
  | _, [] => []
  | fuel + 1, l => l.take 64 :: chunks64 fuel (l.drop 64)

/-- Merkle-Damgard padding of SHA-1: append `0x80`, zeros to 56 mod 64, and
the 64-bit big-endian bit length. -/
def sha1Pad (msg : List Nat) : List Nat :=
  msg ++ 128 :: List.replicate ((119 - msg.length % 64) % 64) 0 ++ be64 (8 * msg.length)

/-- SHA-1 of a byte sequence (models Go `crypto/sha1`). -/
def sha1 (msg : List Nat) : List Nat :=
  let padded := sha1Pad msg
  let (h0, h1, h2, h3, h4) := (chunks64 padded.length padded).foldl sha1Compress
    (1732584193, 4023233417, 2562383102, 271733878, 3285377520)
  be32 h0 ++ be32 h1 ++ be32 h2 ++ be32 h3 ++ be32 h4

/-- HMAC-SHA1 (models Go `crypto/hmac` over `sha1.New`, block size 64). -/
def hmacSha1 (key msg : List Nat) : List Nat :=
  let key := if key.length > 64 then sha1 key else key
  let key := key ++ List.replicate (64 - key.length) 0
  let inner := sha1 ((key.map (fun b => b ^^^ 54)) ++ msg)
  sha1 ((key.map (fun b => b ^^^ 92)) ++ inner)

/-- A lowercase hexadecimal digit. -/
def hexDigit (n : Nat) : Char := Char.ofNat (if n < 10 then 48 + n else 87 + n)

/-- Lowercase hexadecimal of a byte sequence (Go `hex.EncodeToString`). -/
def hexEncode (bytes : List Nat) : String :=
  String.mk (bytes.foldr (fun b acc => hexDigit (b / 16) :: hexDigit (b % 16) :: acc) [])

/-- The bytes of a Go string, as code points: identical to the UTF-8 bytes
on the ASCII strings this code handles, and in any case an injective
encoding, so byte-sequence equality agrees with string equality. -/
def strBytes (s : String) : List Nat := s.data.map Char.toNat

/-- Models `hmac.Equal`: true exactly when the two byte sequences are equal
(the Go function compares in constant time, which has no observable
counterpart here). -/
def hmacEqual (a b : List Nat) : Bool := a == b

/-- The signature prefix stripped by the verifier. -/
def sha1Prefix : String := "sha1="

/-- `CheckPayloadSignature` (rules.go 195-211).  The `mac.Write` error
branch of the source is dead code: `hash.Hash.Write` never returns an
error, so `err` is always `nil` at the final `return`. -/
def CheckPayloadSignature (payload : List Nat) (secret signature : String) : String × Option HookError :=
  let signature := if signature.startsWith sha1Prefix then signature.drop 5 else signature
  let expectedMAC := hexEncode (hmacSha1 (strBytes secret) payload)
  if !(hmacEqual (strBytes signature) (strBytes expectedMAC)) then
    (expectedMAC, some (.signature expectedMAC))
  else
    (expectedMAC, none)

/-- Insert into a list sorted by `le`. -/
def insertSorted (le : α → α → Bool) (x : α) : List α → List α
  | [] => [x]
  | y :: ys => if le x y then x :: y :: ys else y :: insertSorted le x ys

/-- Insertion sort by `le` (Go renders map keys in sorted key order both in
`fmt` verbs and in `json.Marshal`). -/
def sortByKey (le : α → α → Bool) : List α → List α
  | [] => []
  | x :: xs => insertSorted le x (sortByKey le xs)

/-- Models `fmt.Sprintf` with the `v` verb on a decoded tree: strings print
verbatim, `json.Number` prints its literal, booleans and `nil` print their
Go forms, slices print space-separated in brackets, and maps print
`map[k:v ...]` with keys sorted. -/
def sprintfV : Value → String
  | .null => "<nil>"
  | .str s => s
  | .num n => toString n
  | .bool b => if b then ("true") else ("false")
  | .arr elems =>
    "[" ++ String.intercalate (" ") (elems.attach.map (fun x => sprintfV x.1)) ++ "]"
  | .map entries =>
    "map[" ++
      String.intercalate (" ")
        ((sortByKey (fun a b => decide (a.1.1 < b.1.1)) entries.attach).map
          (fun x => x.1.1 ++ ":" ++ sprintfV x.1.2)) ++ "]"
  decreasing_by
  · have := List.sizeOf_lt_of_mem x.2
    simp at *
    omega
  · have := List.sizeOf_lt_of_mem x.2
    rcases x with ⟨⟨k, v⟩, hx⟩
    simp at *
    omega

/-- Minimal JSON string escaping (quote and backslash; sufficient for every
string this development marshals). -/
def jsonEscape (s : String) : String :=
  String.mk (s.data.foldr (fun c acc => if c = '"' ∨ c = '\\' then '\\' :: c :: acc else c :: acc) [])

/-- Models `json.Marshal` on a decoded tree: object keys are sorted, and
marshalling a decoded tree never fails (the error branches after
`json.Marshal` in the source are dead for these inputs). -/
def jsonMarshal : Value → String
  | .null => "null"
  | .str s => "\"" ++ jsonEscape s ++ "\""
  | .num n => toString n
  | .bool b => if b then ("true") else ("false")
  | .arr elems =>
    "[" ++ String.intercalate (",") (elems.attach.map (fun x => jsonMarshal x.1)) ++ "]"
  | .map entries =>
    "\x7b" ++
      String.intercalate (",")
        ((sortByKey (fun a b => decide (a.1.1 < b.1.1)) entries.attach).map
          (fun x => "\"" ++ jsonEscape x.1.1 ++ "\":" ++ jsonMarshal x.1.2)) ++ "\x7d"
  decreasing_by
  · have := List.sizeOf_lt_of_mem x.2
    simp at *
    omega
  · have := List.sizeOf_lt_of_mem x.2
    rcases x with ⟨⟨k, v⟩, hx⟩
    simp at *
    omega

/-- `ExtractParameterAsString` (rules.go 301-306): `GetParameter` followed
by `fmt.Sprintf` with the `v` verb; a panic below propagates (`none`). -/
def ExtractParameterAsString (s : String) (params : Value) : Option (String × Bool) :=
  match GetParameter s params with
  | none => none
  | some (pValue, true) => some (sprintfV pValue, true)
  | some (_, false) => some ("", false)

/-- Source constant (rules.go 130-138). -/
def SourceHeader : String := "header"

/-- Source constant (rules.go 130-138). -/
def SourceQuery : String := "url"

/-- Source constant (rules.go 130-138). -/
def SourcePayload : String := "payload"

/-- Source constant (rules.go 130-138). -/
def SourceString : String := "string"

/-- Source constant (rules.go 130-138). -/
def SourceEntirePayload : String := "entire-payload"

/-- Source constant (rules.go 130-138). -/
def SourceEntireQuery : String := "entire-query"

/-- Source constant (rules.go 130-138). -/
def SourceEntireHeaders : String := "entire-headers"

/-- Env-var prefix constant (rules.go 140-144). -/
def EnvNamespace : String := "HOOK_"

/-- Match-type constant (rules.go 93-97). -/
def MatchValue : String := "value"

/-- Match-type constant (rules.go 93-97). -/
def MatchRegex : String := "regex"

/-- Match-type constant (rules.go 93-97). -/
def MatchHashSHA1 : String := "payload-hash-sha1"

/-- The `if source != nil` tail of `Argument.Get`: a recognized tree source
that is a nil pointer falls through to `("", false)`. -/
def getFromOptSource (name : String) (source : Option Entries) : Option (String × Bool) :=
  match source with
  | some t => ExtractParameterAsString name (.map t)
  | none => some ("", false)

/-- `json.Marshal` through the `*map` pointers the evaluator holds: a nil
pointer marshals to `null`. -/
def jsonMarshalOpt (t : Option Entries) : String :=
  match t with
  | some entries => jsonMarshal (.map entries)
  | none => "null"

/-- `Argument.Get` (rules.go 317-360): resolve a `(source, name)` pair to a
string against the three request trees (each a possibly-nil `*map`). -/
def Argument.Get (ha : Argument) (headers query payload : Option Entries) : Option (String × Bool) :=
  if ha.Source = SourceHeader then getFromOptSource ha.Name headers
  else if ha.Source = SourceQuery then getFromOptSource ha.Name query
  else if ha.Source = SourcePayload then getFromOptSource ha.Name payload
  else if ha.Source = SourceString then some (ha.Name, true)
  else if ha.Source = SourceEntirePayload then some (jsonMarshalOpt payload, true)
  else if ha.Source = SourceEntireHeaders then some (jsonMarshalOpt headers, true)
  else if ha.Source = SourceEntireQuery then some (jsonMarshalOpt query, true)
  else some ("", false)

/-- Parenthesis balance check: the fragment of `regexp.Compile` failure
modelled here (an unbalanced parenthesis is a compile error in Go). -/
def parenCheck : List Char → Nat → Bool
  | [], 0 => true
  | [], _ + 1 => false
  | c :: cs, depth =>
    if c = '(' then parenCheck cs (depth + 1)
    else if c = ')' then
      match depth with
      | 0 => false
      | d + 1 => parenCheck cs d
    else parenCheck cs depth

/-- Substring containment on character lists. -/
def containsSub : List Char → List Char → Bool
  | needle, hay =>
    if needle.isPrefixOf hay then true
    else
      match hay with
      | [] => false
      | _ :: t => containsSub needle t

/-- Models `regexp.MatchString` for the fragment this development needs: a
pattern with unbalanced parentheses fails to compile, which Go reports as
`(false, err)`; a well-formed literal pattern matches exactly when it
occurs as a substring.  No claim depends on any further regular-expression
semantics. -/
def regexpMatchString (pattern s : String) : Bool × Option HookError :=
  if parenCheck pattern.data 0 then (containsSub pattern.data s.data, none)
  else (false, some (.regex pattern))

/-- A `MatchRule` (rules.go 84-90).  The Go field `Type` is `Type'` here
(`Type` is reserved in Lean). -/
structure MatchRule where
  Type' : String := ""
  Regex : String := ""
  Secret : String := ""
  Value : String := ""
  Parameter : Argument := ⟨"", ""⟩
deriving DecidableEq

/-- `MatchRule.Evaluate` (rules.go 100-113): resolve the parameter, then
dispatch on the match type; an unresolved parameter or an unknown type
yields `(false, nil)`. -/
def MatchRule.Evaluate (r : MatchRule) (headers query payload : Option Entries) (body : List Nat) :
    Option (Bool × Option HookError) :=
  match Argument.Get r.Parameter headers query payload with
  | none => none
  | some (arg, true) =>
    if r.Type' = MatchValue then some (arg == r.Value, none)
    else if r.Type' = MatchRegex then
      let (b, err) := regexpMatchString r.Regex arg
      some (b, err)
    else if r.Type' = MatchHashSHA1 then
      let (_, err) := CheckPayloadSignature body r.Secret arg
      some (err.isNone, err)
    else some (false, none)
  | some (_, false) => some (false, none)

/-- A `Rules` node (rules.go 6-11): four optional variants. -/
inductive Rules where
  | mk (And : Option (List Rules)) (Or : Option (List Rules)) (Not : Option Rules)
      (Match : Option MatchRule)

mutual

/-- `Rules.Evaluate` (rules.go 15-28): first populated field wins, in the
order And, Or, Not, Match; an empty node is `(false, nil)`. -/
def Rules.Evaluate : Rules → Option Entries → Option Entries → Option Entries → List Nat →
    Option (Bool × Option HookError)
  | .mk (some r) _ _ _, headers, query, payload, body =>
    AndRule.Evaluate r headers query payload body
  | .mk none (some r) _ _, headers, query, payload, body =>
    OrRule.Evaluate r headers query payload body
  | .mk none none (some r) _, headers, query, payload, body =>
    NotRule.Evaluate r headers query payload body
  | .mk none none none (some r), headers, query, payload, body =>
    MatchRule.Evaluate r headers query payload body
  | .mk none none none none, _, _, _, _ => some (false, none)
termination_by r _ _ _ _ => (sizeOf r, 0)

/-- `AndRule.Evaluate` (rules.go 34-50): `res` starts `true`. -/
def AndRule.Evaluate (r : List Rules) (headers query payload : Option Entries) (body : List Nat) :
    Option (Bool × Option HookError) :=
  andLoop true r headers query payload body
termination_by (sizeOf r, 1)

/-- The loop of `AndRule.Evaluate`: a child error returns `(false, err)`;
otherwise `res = res && rv` and a false `res` returns `(res, nil)`. -/
def andLoop : Bool → List Rules → Option Entries → Option Entries → Option Entries → List Nat →
    Option (Bool × Option HookError)
  | res, [], _, _, _, _ => some (res, none)
  | res, v :: rest, headers, query, payload, body =>
    match Rules.Evaluate v headers query payload body with
    | none => none
    | some (_, some err) => some (false, some err)
    | some (rv, none) =>
      if (res && rv) = false then some (res && rv, none)
      else andLoop (res && rv) rest headers query payload body
termination_by _ rs _ _ _ _ => (sizeOf rs, 0)

/-- `OrRule.Evaluate` (rules.go 56-72): `res` starts `false`. -/
def OrRule.Evaluate (r : List Rules) (headers query payload : Option Entries) (body : List Nat) :
    Option (Bool × Option HookError) :=
  orLoop false r headers query payload body
termination_by (sizeOf r, 1)

/-- The loop of `OrRule.Evaluate`: a child error returns `(false, err)`;
otherwise `res = res || rv` and a true `res` returns `(res, nil)`. -/
def orLoop : Bool → List Rules → Option Entries → Option Entries → Option Entries → List Nat →
    Option (Bool × Option HookError)
  | res, [], _, _, _, _ => some (res, none)
  | res, v :: rest, headers, query, payload, body =>
    match Rules.Evaluate v headers query payload body with
    | none => none
    | some (_, some err) => some (false, some err)
    | some (rv, none) =>
      if (res || rv) = true then some (res || rv, none)
      else orLoop (res || rv) rest headers query payload body
termination_by _ rs _ _ _ _ => (sizeOf rs, 0)

/-- `NotRule.Evaluate` (rules.go 78-81): `rv, err := child; return !rv, err`. -/
def NotRule.Evaluate (r : Rules) (headers query payload : Option Entries) (body : List Nat) :
    Option (Bool × Option HookError) :=
  match Rules.Evaluate r headers query payload body with
  | none => none
  | some (rv, err) => some (!rv, err)
termination_by (sizeOf r, 1)

end

/-- Skip JSON whitespace. -/
def skipWS : List Char → List Char
  | [] => []
  | c :: cs => if c = ' ' ∨ c = '\t' ∨ c = '\n' ∨ c = '\r' then skipWS cs else c :: cs

/-- Unescape one backslash-escaped character of a JSON string (the common
escapes; enough for every string this development decodes). -/
def unescapeChar (e : Char) : Char :=
  if e = 'n' then '\n' else if e = 't' then '\t' else if e = 'r' then '\r' else e

/-- Parse the remainder of a JSON string after the opening quote. -/
def jsonStringRest : List Char → Option (List Char × List Char)
  | [] => none
  | c :: rest =>
    if c = '"' then some ([], rest)
    else if c = '\\' then
      match rest with
      | [] => none
      | e :: rest2 =>
        match jsonStringRest rest2 with
        | none => none
        | some (acc, r) => some (unescapeChar e :: acc, r)
    else
      match jsonStringRest rest with
      | none => none
      | some (acc, r) => some (c :: acc, r)

/-- Parse a maximal run of digits into a `Nat`. -/
def jsonDigitsAux : List Char → Nat → Nat × List Char
  | [], acc => (acc, [])
  | c :: rest, acc =>
    if c.isDigit then jsonDigitsAux rest (acc * 10 + digitVal c) else (acc, c :: rest)

/-- Parse a nonempty digit run. -/
def jsonDigits (cs : List Char) : Option (Nat × List Char) :=
  match cs with
  | c :: _ => if c.isDigit then some (jsonDigitsAux cs 0) else none
  | [] => none

mutual

/-- Parse one JSON value.  Models the fragment of `encoding/json` decoding
(with `UseNumber`) that this development needs: objects, arrays, strings,
integer numbers, `true`/`false`/`null`.  `fuel` bounds the nesting depth;
the callers pass the input length plus one, which always suffices since
every nesting level consumes input. -/
def jsonValue : Nat → List Char → Option (Value × List Char)
  | 0, _ => none
  | fuel + 1, cs =>
    match skipWS cs with
    | [] => none
    | c :: rest =>
      if c = '\x7b' then
        match skipWS rest with
        | '\x7d' :: rest2 => some (.map [], rest2)
        | _ =>
          match jsonMembers fuel rest with
          | some (entries, rest2) => some (.map entries, rest2)
          | none => none
      else if c = '[' then
        match skipWS rest with
        | ']' :: rest2 => some (.arr [], rest2)
        | _ =>
          match jsonElements fuel rest with
          | some (elems, rest2) => some (.arr elems, rest2)
          | none => none
      else if c = '"' then
        match jsonStringRest rest with
        | some (chars, rest2) => some (.str (String.mk chars), rest2)
        | none => none
      else if c = 't' then
        match rest with
        | 'r' :: 'u' :: 'e' :: rest2 => some (.bool true, rest2)
        | _ => none
      else if c = 'f' then
        match rest with
        | 'a' :: 'l' :: 's' :: 'e' :: rest2 => some (.bool false, rest2)
        | _ => none
      else if c = 'n' then
        match rest with
        | 'u' :: 'l' :: 'l' :: rest2 => some (.null, rest2)
        | _ => none
      else if c = '-' then
        match jsonDigits rest with
        | some (n, rest2) => some (.num (-(n : Int)), rest2)
        | none => none
      else if c.isDigit then
        match jsonDigits (c :: rest) with
        | some (n, rest2) => some (.num (n : Int), rest2)
        | none => none
      else none
termination_by structural fuel _ => fuel

/-- Parse the members of a JSON object after the opening brace. -/
def jsonMembers : Nat → List Char → Option (Entries × List Char)
  | 0, _ => none
  | fuel + 1, cs =>
    match skipWS cs with
    | '"' :: rest =>
      match jsonStringRest rest with
      | none => none
      | some (k, rest2) =>
        match skipWS rest2 with
        | ':' :: rest3 =>
          match jsonValue fuel rest3 with
          | none => none
          | some (v, rest4) =>
            match skipWS rest4 with
            | ',' :: rest5 =>
              match jsonMembers fuel rest5 with
              | none => none
              | some (entries, rest6) => some ((String.mk k, v) :: entries, rest6)
            | '\x7d' :: rest5 => some ([(String.mk k, v)], rest5)
            | _ => none
        | _ => none
    | _ => none
termination_by structural fuel _ => fuel

/-- Parse the elements of a JSON array after the opening bracket. -/
def jsonElements : Nat → List Char → Option (List Value × List Char)
  | 0, _ => none
  | fuel + 1, cs =>
    match jsonValue fuel cs with
    | none => none
    | some (v, rest) =>
      match skipWS rest with
      | ',' :: rest2 =>
        match jsonElements fuel rest2 with
        | none => none
        | some (vs, rest3) => some (v :: vs, rest3)
      | ']' :: rest2 => some ([v], rest2)
      | _ => none
termination_by structural fuel _ => fuel

end

/-- Models `json.NewDecoder(...).Decode(&newArg)` with `newArg` a
`map[string]interface{}` and `UseNumber` set: succeeds exactly when the
input starts with a JSON object (trailing data is ignored by a single
`Decode` call); any other document or a syntax error yields the decode
error that `ParseJSONParameters` wraps in a ParseError. -/
def jsonDecodeObject (arg : String) : Option Entries :=
  match jsonValue (arg.data.length + 1) arg.data with
  | some (.map entries, _) => some entries
  | _ => none

/-- A `Hook` (hook.go): the fields this development uses.  The
`ResponseHeaders` field is omitted (response-header rendering is an
external collaborator and no claim touches it). -/
structure Hook where
  ID : String := ""
  ExecuteCommand : String := ""
  CommandWorkingDirectory : String := ""
  ResponseMessage : String := ""
  CaptureCommandOutput : Bool := false
  PassEnvironmentToCommand : List Argument := []
  PassArgumentsToCommand : List Argument := []
  JSONStringParameters : List Argument := []
  TriggerRule : Option Rules := none

/-- The loop of `Hook.ParseJSONParameters` (hook.go 26-62), threading the
three trees (Go mutates them through the `source` pointer).  The boolean
result of `ReplaceParameter` is discarded, exactly as in the source; a
panic below (`none`) propagates. -/
def parseJSONParametersLoop :
    List Argument → Option Entries → Option Entries → Option Entries →
    Option (Option HookError × (Option Entries × Option Entries × Option Entries))
  | [], headers, query, payload => some (none, (headers, query, payload))
  | a :: rest, headers, query, payload =>
    match Argument.Get a headers query payload with
    | none => none
    | some (arg, true) =>
      match jsonDecodeObject arg with
      | none => some (some .parse, (headers, query, payload))
      | some newArg =>
        match (if a.Source = SourceHeader then headers
               else if a.Source = SourcePayload then payload
               else if a.Source = SourceQuery then query
               else none) with
        | none => some (some (.source a), (headers, query, payload))
        | some t =>
          match ReplaceParameter a.Name (.ptr t) (.map newArg) with
          | none => none
          | some (_, t') =>
            let newT : Entries := match t' with | .ptr e => e | .val _ => t
            if a.Source = SourceHeader then parseJSONParametersLoop rest (some newT) query payload
            else if a.Source = SourcePayload then parseJSONParametersLoop rest headers query (some newT)
            else parseJSONParametersLoop rest headers (some newT) payload
    | some (_, false) => some (some (.argument a), (headers, query, payload))

/-- `Hook.ParseJSONParameters` (hook.go 26-62). -/
def Hook.ParseJSONParameters (h : Hook) (headers query payload : Option Entries) :
    Option (Option HookError × (Option Entries × Option Entries × Option Entries)) :=
  parseJSONParametersLoop h.JSONStringParameters headers query payload

/-- The loop of `Hook.ExtractCommandArguments` (hook.go 66-81). -/
def extractCommandArgumentsLoop (headers query payload : Option Entries) :
    List Argument → List String → Option (List String × Option HookError)
  | [], args => some (args, none)
  | a :: rest, args =>
    match Argument.Get a headers query payload with
    | none => none
    | some (arg, true) => extractCommandArgumentsLoop headers query payload rest (args ++ [arg])
    | some (_, false) => some (args ++ [""], some (.argument a))

/-- `Hook.ExtractCommandArguments` (hook.go 66-81): the argument list starts
with `ExecuteCommand`; the first unresolved argument appends an empty
placeholder and stops with an ArgumentError. -/
def Hook.ExtractCommandArguments (h : Hook) (headers query payload : Option Entries) :
    Option (List String × Option HookError) :=
  extractCommandArgumentsLoop headers query payload h.PassArgumentsToCommand [h.ExecuteCommand]

/-- The loop of `Hook.ExtractCommandArgumentsForEnv` (hook.go 86-98). -/
def extractEnvLoop (headers query payload : Option Entries) :
    List Argument → List String → Option (List String × Option HookError)
  | [], args => some (args, none)
  | a :: rest, args =>
    match Argument.Get a headers query payload with
    | none => none
    | some (arg, true) =>
      extractEnvLoop headers query payload rest (args ++ [EnvNamespace ++ a.Name ++ "=" ++ arg])
    | some (_, false) => some (args, some (.argument a))

/-- `Hook.ExtractCommandArgumentsForEnv` (hook.go 86-98): `HOOK_name=value`
entries; the first unresolved argument stops with an ArgumentError and no
placeholder. -/
def Hook.ExtractCommandArgumentsForEnv (h : Hook) (headers query payload : Option Entries) :
    Option (List String × Option HookError) :=
  extractEnvLoop headers query payload h.PassEnvironmentToCommand []

/-! ## Theorems -/

theorem splitDot_rest_length :
    ∀ cs p rest, splitDot cs = (p, some rest) → rest.length < cs.length := by
  intro cs
  induction cs with
  | nil => intro p rest h; simp [splitDot] at h
  | cons c cs ih =>
    intro p rest h
    by_cases hc : c = '.'
    · simp [splitDot, hc] at h
      simp [← h.2]
    · simp [splitDot, hc] at h
      have h2 : splitDot cs = ((splitDot cs).1, some rest) := by rw [← h.2]
      exact Nat.lt_succ_of_lt (ih _ _ h2)

theorem char_toNat_injective : Function.Injective Char.toNat := by
  intro a b h
  rw [← Char.ofNat_toNat a, ← Char.ofNat_toNat b, h]

theorem strBytes_inj {a b : String} (h : strBytes a = strBytes b) : a = b := by
  apply String.ext
  exact List.map_injective_iff.mpr char_toNat_injective h

/-- The mapping `{a: {b: 1}}` of the round-trip test. -/
def abTree : Entries := [("a", Value.map [("b", Value.num 1)])]

/-- Claim C1: the round-trip fails on the code.  `GetParameter("a.b")` on
`{a:{b:1}}` does return `(1, true)`, but `ReplaceParameter("a.b", _, 2)`
panics instead of returning `true`: with the documented `*map` argument the
dotted branch runs the type assertion `params.(map[string]interface{})` on
a pointer, and with a plain map argument the recursion reaches the terminal
branch holding an inner plain map where `params.(*map[string]interface{})`
fails.  The subsequent `Get` returning `(2, true)` is therefore never
reached. -/
theorem c1_set_roundtrip_panics :
    GetParameter ("a.b") (.map abTree) = some (Value.num 1, true) ∧
    ReplaceParameter ("a.b") (.ptr abTree) (Value.num 2) = none ∧
    ReplaceParameter ("a.b") (.val (.map abTree)) (Value.num 2) = none :=
  ⟨rfl, rfl, rfl⟩

/-- Claim C2: `GetParameter` is not total.  It panics (`none`) on a path
whose final segment lands on a scalar node, because the terminal mapping
branch runs an unguarded type assertion; and it panics on a sequence index
at `2 ^ 63`, because `int(index)` wraps negative, the bounds check
`length <= int(index)` passes, and the slice indexing is out of range.  The
soft-failure examples of the claim do hold: an out-of-range (but small)
index and a parse failure return `(nil, false)`, and an in-range index
returns the element. -/
theorem c2_get_parameter_panics :
    GetParameter ("a.b") (.map [("a", Value.num 1)]) = none ∧
    GetParameter ("9223372036854775808") (.arr [Value.str ("x"), Value.str ("y")]) = none ∧
    GetParameter ("2") (.arr [Value.str ("x"), Value.str ("y")]) = some (Value.null, false) ∧
    GetParameter ("1") (.arr [Value.str ("x"), Value.str ("y")]) = some (Value.str ("y"), true) :=
  ⟨rfl, rfl, rfl, rfl⟩

/-- Claim C4: `CheckPayloadSignature` strips an optional `sha1=` prefix,
computes the hex HMAC-SHA1 of the payload under the secret, and returns
that hex in both outcomes — with no error when the stripped signature
equals it, and with a `SignatureError` carrying it otherwise. -/
theorem c4_check_payload_signature (payload : List Nat) (secret signature : String) :
    CheckPayloadSignature payload secret signature =
      (hexEncode (hmacSha1 (strBytes secret) payload),
       if (if signature.startsWith sha1Prefix then signature.drop 5 else signature) =
           hexEncode (hmacSha1 (strBytes secret) payload)
       then none
       else some (HookError.signature (hexEncode (hmacSha1 (strBytes secret) payload)))) := by
  by_cases h : (if signature.startsWith sha1Prefix then signature.drop 5 else signature) =
      hexEncode (hmacSha1 (strBytes secret) payload)
  · simp only [CheckPayloadSignature, hmacEqual, h, if_pos, beq_self_eq_true, Bool.not_true,
      Bool.false_eq_true, if_false, if_true]
  · have hb : strBytes (if signature.startsWith sha1Prefix then signature.drop 5 else signature) ≠
        strBytes (hexEncode (hmacSha1 (strBytes secret) payload)) :=
      fun hc => h (strBytes_inj hc)
    simp only [CheckPayloadSignature, hmacEqual, h, if_neg, bne_iff_ne, ne_eq, hb,
      not_false_eq_true, beq_eq_false_iff_ne, Bool.not_eq_true']
    simp [hb]

/-- Claim C7: `Rules.Evaluate` applies the fixed variant priority And, Or,
Not, Match — the first populated field is evaluated and the rest are
ignored — and a node with no populated field evaluates to `(false, nil)`. -/
theorem c7_rules_variant_priority
    (a o : List Rules) (oo : Option (List Rules)) (no : Option Rules)
    (mo : Option MatchRule) (n : Rules) (m : MatchRule)
    (headers query payload : Option Entries) (body : List Nat) :
    Rules.Evaluate (.mk (some a) oo no mo) headers query payload body
      = AndRule.Evaluate a headers query payload body ∧
    Rules.Evaluate (.mk none (some o) no mo) headers query payload body
      = OrRule.Evaluate o headers query payload body ∧
    Rules.Evaluate (.mk none none (some n) mo) headers query payload body
      = NotRule.Evaluate n headers query payload body ∧
    Rules.Evaluate (.mk none none none (some m)) headers query payload body
      = MatchRule.Evaluate m headers query payload body ∧
    Rules.Evaluate (.mk none none none none) headers query payload body
      = some (false, none) := by
  refine ⟨?_, ?_, ?_, ?_, ?_⟩ <;> simp [Rules.Evaluate]

/-- Claim C5: `Not` negates the child boolean and propagates a child error
unmodified: a child `(b, nil)` gives `(not b, nil)`, and a child error `e`
is returned as exactly `e` (the source also negates the accompanying
boolean, which the claim leaves unconstrained). -/
theorem c5_not_negates_and_propagates
    (r : Rules) (headers query payload : Option Entries) (body : List Nat)
    (b : Bool) (e : HookError) :
    (Rules.Evaluate r headers query payload body = some (b, none) →
      NotRule.Evaluate r headers query payload body = some (!b, none)) ∧
    (Rules.Evaluate r headers query payload body = some (b, some e) →
      NotRule.Evaluate r headers query payload body = some (!b, some e)) := by
  constructor <;> intro h <;> simp [NotRule.Evaluate, h]

/-- Witness for C5 on concrete rules: a true `value` match child negates to
false, and a child whose regular expression fails to compile propagates the
error (with the boolean negated to true). -/
theorem c5_witness :
    NotRule.Evaluate
      (.mk none none none (some { Type' := "value", Value := "x", Parameter := ⟨"string", "x"⟩ }))
      none none none [] = some (false, none) ∧
    NotRule.Evaluate
      (.mk none none none (some { Type' := "regex", Regex := "(", Parameter := ⟨"string", "x"⟩ }))
      none none none [] = some (true, some (.regex ("("))) := by
  constructor
  · exact (c5_not_negates_and_propagates _ none none none [] true (.regex ("("))).1
      (by simp [Rules.Evaluate]; rfl)
  · exact (c5_not_negates_and_propagates _ none none none [] false (.regex ("("))).2
      (by simp [Rules.Evaluate]; rfl)

/-- Claim C3: a `payload-hash-sha1` match delegates to
`CheckPayloadSignature` on the raw body and the rule secret; the boolean is
true exactly when verification produced no error, and a verification error
is returned alongside `false` (never collapsed to `(false, nil)`); an
unresolved argument gives `(false, nil)`. -/
theorem c3_match_sha1 (r : MatchRule) (headers query payload : Option Entries)
    (body : List Nat) (ht : r.Type' = MatchHashSHA1) :
    (∀ arg, Argument.Get r.Parameter headers query payload = some (arg, true) →
      MatchRule.Evaluate r headers query payload body =
        some ((CheckPayloadSignature body r.Secret arg).2.isNone,
              (CheckPayloadSignature body r.Secret arg).2)) ∧
    (∀ v, Argument.Get r.Parameter headers query payload = some (v, false) →
      MatchRule.Evaluate r headers query payload body = some (false, none)) := by
  constructor
  · intro arg hg
    rcases hc : CheckPayloadSignature body r.Secret arg with ⟨mac, err⟩
    simp [MatchRule.Evaluate, hg, ht, MatchHashSHA1, MatchValue, MatchRegex, hc]
  · intro v hg
    simp [MatchRule.Evaluate, hg]

/-- Witness for C3: a concrete `payload-hash-sha1` rule whose argument is a
literal string resolves and yields the verifier outcome, and one whose
argument points into an absent header tree yields `(false, nil)`. -/
theorem c3_witness :
    MatchRule.Evaluate
      { Type' := "payload-hash-sha1", Secret := "s", Parameter := ⟨"string", "sig"⟩ }
      none none none [104, 105] =
      some ((CheckPayloadSignature [104, 105] ("s") ("sig")).2.isNone,
            (CheckPayloadSignature [104, 105] ("s") ("sig")).2) ∧
    MatchRule.Evaluate
      { Type' := "payload-hash-sha1", Secret := "s", Parameter := ⟨"header", "sig"⟩ }
      none none none [104, 105] = some (false, none) := by
  constructor
  · exact (c3_match_sha1 _ none none none [104, 105] rfl).1 ("sig") rfl
  · exact (c3_match_sha1 _ none none none [104, 105] rfl).2 ("") rfl

/-- Claim C8: unknown enumeration strings fall through to the negative
result without error: a `MatchRule` whose type is none of the three
recognized constants evaluates to `(false, nil)` whenever its argument
resolves (with either found flag), and an `Argument` whose source is none
of the seven recognized constants resolves to `("", false)`. -/
theorem c8_unknown_enum_fallthrough
    (r : MatchRule) (a : Argument) (headers query payload : Option Entries) (body : List Nat)
    (ht1 : r.Type' ≠ MatchValue) (ht2 : r.Type' ≠ MatchRegex) (ht3 : r.Type' ≠ MatchHashSHA1)
    (hs1 : a.Source ≠ SourceHeader) (hs2 : a.Source ≠ SourceQuery)
    (hs3 : a.Source ≠ SourcePayload) (hs4 : a.Source ≠ SourceString)
    (hs5 : a.Source ≠ SourceEntirePayload) (hs6 : a.Source ≠ SourceEntireQuery)
    (hs7 : a.Source ≠ SourceEntireHeaders) :
    (∀ arg ok, Argument.Get r.Parameter headers query payload = some (arg, ok) →
      MatchRule.Evaluate r headers query payload body = some (false, none)) ∧
    Argument.Get a headers query payload = some ("", false) := by
  constructor
  · intro arg ok hg
    cases ok
    · simp [MatchRule.Evaluate, hg]
    · simp [MatchRule.Evaluate, hg, ht1, ht2, ht3]
  · simp [Argument.Get, hs1, hs2, hs3, hs4, hs5, hs6, hs7]

/-- Witness for C8: a match rule with the unknown type `bogus` whose
argument resolves evaluates to `(false, nil)`, and an argument with the
unknown source `bogus` resolves to `("", false)`. -/
theorem c8_witness :
    MatchRule.Evaluate { Type' := "bogus", Parameter := ⟨"string", "x"⟩ } none none none []
      = some (false, none) ∧
    Argument.Get ⟨"bogus", "x"⟩ none none none = some ("", false) := by
  constructor
  · exact (c8_unknown_enum_fallthrough
      { Type' := "bogus", Parameter := ⟨"string", "x"⟩ } ⟨"bogus", "x"⟩ none none none []
      (by decide) (by decide) (by decide) (by decide) (by decide) (by decide) (by decide)
      (by decide) (by decide) (by decide)).1 ("x") true rfl
  · exact (c8_unknown_enum_fallthrough
      { Type' := "bogus", Parameter := ⟨"string", "x"⟩ } ⟨"bogus", "x"⟩ none none none []
      (by decide) (by decide) (by decide) (by decide) (by decide) (by decide) (by decide)
      (by decide) (by decide) (by decide)).2

theorem andLoop_all_true (headers query payload : Option Entries) (body : List Nat) :
    ∀ (pre rest : List Rules),
      (∀ r ∈ pre, Rules.Evaluate r headers query payload body = some (true, none)) →
      andLoop true (pre ++ rest) headers query payload body
        = andLoop true rest headers query payload body := by
  intro pre
  induction pre with
  | nil => intro rest _; rfl
  | cons v vs ih =>
    intro rest hall
    have hv := hall v (by simp)
    simp only [List.cons_append, andLoop, hv]
    exact ih rest (fun r hr => hall r (List.mem_cons_of_mem _ hr))

theorem orLoop_all_false (headers query payload : Option Entries) (body : List Nat) :
    ∀ (pre rest : List Rules),
      (∀ r ∈ pre, Rules.Evaluate r headers query payload body = some (false, none)) →
      orLoop false (pre ++ rest) headers query payload body
        = orLoop false rest headers query payload body := by
  intro pre
  induction pre with
  | nil => intro rest _; rfl
  | cons v vs ih =>
    intro rest hall
    have hv := hall v (by simp)
    simp only [List.cons_append, orLoop, hv]
    exact ih rest (fun r hr => hall r (List.mem_cons_of_mem _ hr))

/-- Claim C6: `And` and `Or` evaluate left-to-right and short-circuit:
`And` of the empty list is `(true, nil)`; with every earlier child true,
an erroring child stops `And` at `(false, err)` and a false child stops it
at `(false, nil)` whatever comes later; dually, `Or` of the empty list is
`(false, nil)`, and with every earlier child false an erroring child stops
it at `(false, err)` and a true child stops it at `(true, nil)`. -/
theorem c6_and_or_short_circuit
    (headers query payload : Option Entries) (body : List Nat)
    (pre post : List Rules) (c : Rules) (b : Bool) (e : HookError) :
    AndRule.Evaluate [] headers query payload body = some (true, none) ∧
    OrRule.Evaluate [] headers query payload body = some (false, none) ∧
    ((∀ r ∈ pre, Rules.Evaluate r headers query payload body = some (true, none)) →
      Rules.Evaluate c headers query payload body = some (b, some e) →
      AndRule.Evaluate (pre ++ c :: post) headers query payload body
        = some (false, some e)) ∧
    ((∀ r ∈ pre, Rules.Evaluate r headers query payload body = some (true, none)) →
      Rules.Evaluate c headers query payload body = some (false, none) →
      AndRule.Evaluate (pre ++ c :: post) headers query payload body
        = some (false, none)) ∧
    ((∀ r ∈ pre, Rules.Evaluate r headers query payload body = some (false, none)) →
      Rules.Evaluate c headers query payload body = some (b, some e) →
      OrRule.Evaluate (pre ++ c :: post) headers query payload body
        = some (false, some e)) ∧
    ((∀ r ∈ pre, Rules.Evaluate r headers query payload body = some (false, none)) →
      Rules.Evaluate c headers query payload body = some (true, none) →
      OrRule.Evaluate (pre ++ c :: post) headers query payload body
        = some (true, none)) := by
  refine ⟨by simp [AndRule.Evaluate, andLoop], by simp [OrRule.Evaluate, orLoop], ?_, ?_, ?_, ?_⟩
  · intro hall hc
    simp only [AndRule.Evaluate]
    rw [andLoop_all_true headers query payload body pre (c :: post) hall]
    simp [andLoop, hc]
  · intro hall hc
    simp only [AndRule.Evaluate]
    rw [andLoop_all_true headers query payload body pre (c :: post) hall]
    simp [andLoop, hc]
  · intro hall hc
    simp only [OrRule.Evaluate]
    rw [orLoop_all_false headers query payload body pre (c :: post) hall]
    simp [orLoop, hc]
  · intro hall hc
    simp only [OrRule.Evaluate]
    rw [orLoop_all_false headers query payload body pre (c :: post) hall]
    simp [orLoop, hc]

/-- Witness for C6 on concrete rules.  The third child of each list would
panic if evaluated (its parameter path dereferences a scalar), so the
results also exhibit that evaluation stops before it. -/
theorem c6_witness :
    AndRule.Evaluate
      [.mk none none none (some { Type' := "value", Value := "x", Parameter := ⟨"string", "x"⟩ }),
       .mk none none none (some { Type' := "regex", Regex := "(", Parameter := ⟨"string", "x"⟩ }),
       .mk none none none (some { Type' := "value", Value := "x", Parameter := ⟨"payload", "a.b"⟩ })]
      none none (some [("a", Value.num 1)]) [] = some (false, some (.regex ("("))) ∧
    OrRule.Evaluate
      [.mk none none none (some { Type' := "value", Value := "x", Parameter := ⟨"string", "y"⟩ }),
       .mk none none none (some { Type' := "value", Value := "x", Parameter := ⟨"string", "x"⟩ }),
       .mk none none none (some { Type' := "value", Value := "x", Parameter := ⟨"payload", "a.b"⟩ })]
      none none (some [("a", Value.num 1)]) [] = some (true, none) := by
  constructor
  · exact (c6_and_or_short_circuit none none (some [("a", Value.num 1)]) []
      [.mk none none none (some { Type' := "value", Value := "x", Parameter := ⟨"string", "x"⟩ })]
      [.mk none none none (some { Type' := "value", Value := "x", Parameter := ⟨"payload", "a.b"⟩ })]
      (.mk none none none (some { Type' := "regex", Regex := "(", Parameter := ⟨"string", "x"⟩ }))
      false (.regex ("("))).2.2.1
      (by intro r hr
          simp only [List.mem_singleton] at hr
          subst hr
          simp [Rules.Evaluate]; rfl)
      (by simp [Rules.Evaluate]; rfl)
  · exact (c6_and_or_short_circuit none none (some [("a", Value.num 1)]) []
      [.mk none none none (some { Type' := "value", Value := "x", Parameter := ⟨"string", "y"⟩ })]
      [.mk none none none (some { Type' := "value", Value := "x", Parameter := ⟨"payload", "a.b"⟩ })]
      (.mk none none none (some { Type' := "value", Value := "x", Parameter := ⟨"string", "x"⟩ }))
      false (.regex ("("))).2.2.2.2.2
      (by intro r hr
          simp only [List.mem_singleton] at hr
          subst hr
          simp [Rules.Evaluate]; rfl)
      (by simp [Rules.Evaluate]; rfl)

theorem extractArgsLoop_resolved (headers query payload : Option Entries)
    (f : Argument → String) :
    ∀ (xs : List Argument) (args : List String),
      (∀ a ∈ xs, Argument.Get a headers query payload = some (f a, true)) →
      extractCommandArgumentsLoop headers query payload xs args
        = some (args ++ xs.map f, none) := by
  intro xs
  induction xs with
  | nil => intro args _; simp [extractCommandArgumentsLoop]
  | cons a as ih =>
    intro args hall
    have ha := hall a (by simp)
    simp only [extractCommandArgumentsLoop, ha]
    rw [ih (args ++ [f a]) (fun x hx => hall x (List.mem_cons_of_mem _ hx))]
    simp

theorem extractArgsLoop_stops (headers query payload : Option Entries)
    (f : Argument → String) (bad : Argument) (vbad : String) (post : List Argument)
    (hbad : Argument.Get bad headers query payload = some (vbad, false)) :
    ∀ (pre : List Argument) (args : List String),
      (∀ a ∈ pre, Argument.Get a headers query payload = some (f a, true)) →
      extractCommandArgumentsLoop headers query payload (pre ++ bad :: post) args
        = some ((args ++ pre.map f) ++ [""], some (.argument bad)) := by
  intro pre
  induction pre with
  | nil => intro args _; simp [extractCommandArgumentsLoop, hbad]
  | cons a as ih =>
    intro args hall
    have ha := hall a (by simp)
    simp only [List.cons_append, extractCommandArgumentsLoop, ha]
    simp only [List.append_eq]
    rw [ih (args ++ [f a]) (fun x hx => hall x (List.mem_cons_of_mem _ hx))]
    simp

theorem extractEnvLoop_resolved (headers query payload : Option Entries)
    (f : Argument → String) :
    ∀ (xs : List Argument) (args : List String),
      (∀ a ∈ xs, Argument.Get a headers query payload = some (f a, true)) →
      extractEnvLoop headers query payload xs args
        = some (args ++ xs.map (fun a => EnvNamespace ++ a.Name ++ "=" ++ f a), none) := by
  intro xs
  induction xs with
  | nil => intro args _; simp [extractEnvLoop]
  | cons a as ih =>
    intro args hall
    have ha := hall a (by simp)
    simp only [extractEnvLoop, ha]
    rw [ih (args ++ [EnvNamespace ++ a.Name ++ "=" ++ f a])
      (fun x hx => hall x (List.mem_cons_of_mem _ hx))]
    simp

theorem extractEnvLoop_stops (headers query payload : Option Entries)
    (f : Argument → String) (bad : Argument) (vbad : String) (post : List Argument)
    (hbad : Argument.Get bad headers query payload = some (vbad, false)) :
    ∀ (pre : List Argument) (args : List String),
      (∀ a ∈ pre, Argument.Get a headers query payload = some (f a, true)) →
      extractEnvLoop headers query payload (pre ++ bad :: post) args
        = some (args ++ pre.map (fun a => EnvNamespace ++ a.Name ++ "=" ++ f a),
                some (.argument bad)) := by
  intro pre
  induction pre with
  | nil => intro args _; simp [extractEnvLoop, hbad]
  | cons a as ih =>
    intro args hall
    have ha := hall a (by simp)
    simp only [List.cons_append, extractEnvLoop, ha]
    simp only [List.append_eq]
    rw [ih (args ++ [EnvNamespace ++ a.Name ++ "=" ++ f a])
      (fun x hx => hall x (List.mem_cons_of_mem _ hx))]
    simp

/-- Claim C9: `ExtractCommandArguments` yields `ExecuteCommand` followed by
the resolved arguments in declared order, and on the first unresolved
argument appends an empty placeholder, stops and reports an ArgumentError;
`ExtractCommandArgumentsForEnv` yields `HOOK_name=value` entries and stops
at the first unresolved argument with no placeholder; both yield a nil
error when every argument resolves. -/
theorem c9_extract_stops_at_first_unresolved
    (h : Hook) (headers query payload : Option Entries)
    (f : Argument → String) (pre post : List Argument) (bad : Argument) (vbad : String) :
    ((∀ a ∈ h.PassArgumentsToCommand,
        Argument.Get a headers query payload = some (f a, true)) →
      h.ExtractCommandArguments headers query payload
        = some (h.ExecuteCommand :: h.PassArgumentsToCommand.map f, none)) ∧
    (h.PassArgumentsToCommand = pre ++ bad :: post →
      (∀ a ∈ pre, Argument.Get a headers query payload = some (f a, true)) →
      Argument.Get bad headers query payload = some (vbad, false) →
      h.ExtractCommandArguments headers query payload
        = some ((h.ExecuteCommand :: pre.map f) ++ [""], some (.argument bad))) ∧
    ((∀ a ∈ h.PassEnvironmentToCommand,
        Argument.Get a headers query payload = some (f a, true)) →
      h.ExtractCommandArgumentsForEnv headers query payload
        = some (h.PassEnvironmentToCommand.map (fun a => EnvNamespace ++ a.Name ++ "=" ++ f a),
                none)) ∧
    (h.PassEnvironmentToCommand = pre ++ bad :: post →
      (∀ a ∈ pre, Argument.Get a headers query payload = some (f a, true)) →
      Argument.Get bad headers query payload = some (vbad, false) →
      h.ExtractCommandArgumentsForEnv headers query payload
        = some (pre.map (fun a => EnvNamespace ++ a.Name ++ "=" ++ f a),
                some (.argument bad))) := by
  refine ⟨?_, ?_, ?_, ?_⟩
  · intro hall
    simp only [Hook.ExtractCommandArguments]
    rw [extractArgsLoop_resolved headers query payload f _ _ hall]
    simp
  · intro heq hall hbad
    simp only [Hook.ExtractCommandArguments, heq]
    rw [extractArgsLoop_stops headers query payload f bad vbad post hbad pre _ hall]
    simp
  · intro hall
    simp only [Hook.ExtractCommandArgumentsForEnv]
    rw [extractEnvLoop_resolved headers query payload f _ _ hall]
    simp
  · intro heq hall hbad
    simp only [Hook.ExtractCommandArgumentsForEnv, heq]
    rw [extractEnvLoop_stops headers query payload f bad vbad post hbad pre _ hall]
    simp

/-- Witness for C9: a hook whose second command argument points into an
empty header tree stops with the placeholder and the error, and a hook
whose environment arguments all resolve produces the full `HOOK_` list. -/
theorem c9_witness :
    Hook.ExtractCommandArguments
      { ExecuteCommand := "run", PassArgumentsToCommand := [⟨"string", "ok"⟩, ⟨"header", "missing"⟩] }
      (some []) none none
      = some (["run", "ok"] ++ [""], some (.argument ⟨"header", "missing"⟩)) ∧
    Hook.ExtractCommandArgumentsForEnv
      { ExecuteCommand := "run", PassEnvironmentToCommand := [⟨"string", "ok"⟩] }
      (some []) none none
      = some (["HOOK_ok=ok"], none) := by
  constructor
  · exact (c9_extract_stops_at_first_unresolved
      { ExecuteCommand := "run", PassArgumentsToCommand := [⟨"string", "ok"⟩, ⟨"header", "missing"⟩] }
      (some []) none none (fun a => a.Name) [⟨"string", "ok"⟩] [] ⟨"header", "missing"⟩ "").2.1
      rfl
      (by intro a ha
          simp only [List.mem_singleton] at ha
          subst ha
          rfl)
      rfl
  · exact (c9_extract_stops_at_first_unresolved
      { ExecuteCommand := "run", PassEnvironmentToCommand := [⟨"string", "ok"⟩] }
      (some []) none none (fun a => a.Name) [] [] ⟨"header", "missing"⟩ "").2.2.1
      (by intro a ha
          simp only [List.mem_singleton] at ha
          subst ha
          rfl)

theorem splitDot_none_eq : ∀ cs p0, splitDot cs = (p0, none) → p0 = cs := by
  intro cs
  induction cs with
  | nil =>
    intro p0 h
    simp [splitDot] at h
    exact h
  | cons c cs ih =>
    intro p0 h
    by_cases hc : c = '.'
    · simp [splitDot, hc] at h
    · simp [splitDot, hc] at h
      have h2 : splitDot cs = ((splitDot cs).1, none) := by rw [← h.2]
      rw [← h.1, ih (splitDot cs).1 h2]

theorem getParameterAux_map_terminal (fuel : Nat) (s : List Char) (t : Entries)
    (p0 : List Char) (hsp : splitDot s = (p0, none)) :
    getParameterAux (fuel + 1) s (.map t)
      = match lookupEntry t (String.mk p0) with
        | some pValue => some (pValue, true)
        | none => some (.null, false) := by
  simp only [getParameterAux, hsp]

theorem replaceParameter_ptr_dotted (name : String) (t : Entries) (w : Value)
    (p0 rest : List Char) (hsp : splitDot name.data = (p0, some rest)) :
    ReplaceParameter name (.ptr t) w = none := by
  simp only [ReplaceParameter, replaceParameterAux, hsp]

theorem replaceParameter_ptr_terminal (name : String) (t : Entries) (w : Value)
    (p0 : List Char) (hsp : splitDot name.data = (p0, none)) :
    ReplaceParameter name (.ptr t) w
      = if (lookupEntry t (String.mk p0)).isSome
        then some (true, .ptr (setEntry t (String.mk p0) w))
        else some (false, .ptr t) := by
  simp only [ReplaceParameter, replaceParameterAux, hsp]

theorem extract_found_getParameter (name : String) (t : Entries) (v : String)
    (hext : ExtractParameterAsString name (.map t) = some (v, true)) :
    ∃ pv, GetParameter name (.map t) = some (pv, true) := by
  unfold ExtractParameterAsString at hext
  rcases hg : GetParameter name (.map t) with _ | ⟨pv, found⟩
  · rw [hg] at hext
    simp at hext
  · cases found
    · rw [hg] at hext
      simp at hext
    · exact ⟨pv, rfl⟩

theorem extract_found_lookup (name : String) (t : Entries) (v : String) (p0 : List Char)
    (hsp : splitDot name.data = (p0, none))
    (hext : ExtractParameterAsString name (.map t) = some (v, true)) :
    (lookupEntry t (String.mk p0)).isSome := by
  rcases extract_found_getParameter name t v hext with ⟨pv, hg⟩
  unfold GetParameter at hg
  rw [getParameterAux_map_terminal _ _ _ _ hsp] at hg
  rcases hl : lookupEntry t (String.mk p0) with _ | pv2
  · rw [hl] at hg
    simp at hg
  · simp

theorem argumentGet_recognized_ext (a : Argument) (headers query payload : Option Entries)
    (v : String) (t : Entries)
    (hget : Argument.Get a headers query payload = some (v, true))
    (hsel : (if a.Source = SourceHeader then headers
             else if a.Source = SourcePayload then payload
             else if a.Source = SourceQuery then query
             else none) = some t) :
    ExtractParameterAsString a.Name (.map t) = some (v, true) := by
  by_cases hH : a.Source = SourceHeader
  · rw [if_pos hH] at hsel
    unfold Argument.Get at hget
    rw [if_pos hH, hsel] at hget
    simpa [getFromOptSource] using hget
  · by_cases hP : a.Source = SourcePayload
    · have hQ : a.Source ≠ SourceQuery := by rw [hP]; decide
      rw [if_neg hH, if_pos hP] at hsel
      unfold Argument.Get at hget
      rw [if_neg hH, if_neg hQ, if_pos hP, hsel] at hget
      simpa [getFromOptSource] using hget
    · by_cases hQ : a.Source = SourceQuery
      · rw [if_neg hH, if_neg hP, if_pos hQ] at hsel
        unfold Argument.Get at hget
        rw [if_neg hH, if_pos hQ, hsel] at hget
        simpa [getFromOptSource] using hget
      · rw [if_neg hH, if_neg hP, if_neg hQ] at hsel
        exact Option.noConfusion hsel

theorem c10_core (name : String) (t : Entries) (v : String) (w : Value) (g : GoParams)
    (hext : ExtractParameterAsString name (.map t) = some (v, true))
    (hrep : ReplaceParameter name (.ptr t) w = some (false, g)) : False := by
  rcases hsp : splitDot name.data with ⟨p0, orest⟩
  cases orest with
  | some rest =>
    rw [replaceParameter_ptr_dotted name t w p0 rest hsp] at hrep
    exact Option.noConfusion hrep
  | none =>
    have hl := extract_found_lookup name t v p0 hsp hext
    rw [replaceParameter_ptr_terminal name t w p0 hsp, if_pos hl] at hrep
    simp at hrep

/-- Counterexample to Claim C10: the scenario the claim describes cannot
occur.  There is no configuration in which the argument value resolves
(`found = true`) from a recognized source domain and `ReplaceParameter`
nevertheless returns `false` on that same tree: when the name is dot-free,
resolution means the key exists, so the splice returns `true`; when the
name is dotted, `ReplaceParameter` panics on its type assertion instead of
returning at all. -/
theorem c10_counterexample :
    ¬ ∃ (a : Argument) (headers query payload : Option Entries) (v : String)
        (obj t : Entries) (g : GoParams),
      Argument.Get a headers query payload = some (v, true) ∧
      jsonDecodeObject v = some obj ∧
      (if a.Source = SourceHeader then headers
       else if a.Source = SourcePayload then payload
       else if a.Source = SourceQuery then query
       else none) = some t ∧
      ReplaceParameter a.Name (.ptr t) (.map obj) = some (false, g) := by
  rintro ⟨a, headers, query, payload, v, obj, t, g, hget, hdec, hsel, hrep⟩
  exact c10_core a.Name t v (.map obj) g
    (argumentGet_recognized_ext a headers query payload v t hget hsel) hrep

/-- Claim C10, amended: `ParseJSONParameters` does discard the boolean
result of `ReplaceParameter`, but the claimed silently-ignored failure is
unreachable.  For a hook with one JSON-decode argument whose value
resolves, decodes as a JSON object, and names a recognized source domain:
a dotted name makes `ReplaceParameter` panic, so `ParseJSONParameters`
panics rather than returning nil; a dot-free name makes the splice succeed
(the key exists because the value just resolved), so `ParseJSONParameters`
returns nil with the tree updated, never unchanged. -/
theorem c10_amended (hk : Hook) (a : Argument) (headers query payload : Option Entries)
    (v : String) (obj t : Entries)
    (hargs : hk.JSONStringParameters = [a])
    (hget : Argument.Get a headers query payload = some (v, true))
    (hdec : jsonDecodeObject v = some obj)
    (hsel : (if a.Source = SourceHeader then headers
             else if a.Source = SourcePayload then payload
             else if a.Source = SourceQuery then query
             else none) = some t) :
    (∀ p0 rest, splitDot a.Name.data = (p0, some rest) →
      hk.ParseJSONParameters headers query payload = none) ∧
    (∀ p0, splitDot a.Name.data = (p0, none) →
      ReplaceParameter a.Name (.ptr t) (.map obj)
        = some (true, .ptr (setEntry t a.Name (.map obj))) ∧
      (a.Source = SourceHeader →
        hk.ParseJSONParameters headers query payload
          = some (none, (some (setEntry t a.Name (.map obj)), query, payload))) ∧
      (a.Source = SourcePayload →
        hk.ParseJSONParameters headers query payload
          = some (none, (headers, query, some (setEntry t a.Name (.map obj))))) ∧
      (a.Source = SourceQuery →
        hk.ParseJSONParameters headers query payload
          = some (none, (headers, some (setEntry t a.Name (.map obj)), payload)))) := by
  have hext := argumentGet_recognized_ext a headers query payload v t hget hsel
  constructor
  · intro p0 rest hsp
    have hrep := replaceParameter_ptr_dotted a.Name t (.map obj) p0 rest hsp
    simp only [Hook.ParseJSONParameters, hargs, parseJSONParametersLoop, hget, hdec, hsel, hrep]
  · intro p0 hsp
    have hl := extract_found_lookup a.Name t v p0 hsp hext
    have hp0 : String.mk p0 = a.Name := by
      rw [splitDot_none_eq a.Name.data p0 hsp]
    have hrep : ReplaceParameter a.Name (.ptr t) (.map obj)
        = some (true, .ptr (setEntry t a.Name (.map obj))) := by
      rw [replaceParameter_ptr_terminal a.Name t (.map obj) p0 hsp, if_pos hl, hp0]
    refine ⟨hrep, ?_, ?_, ?_⟩
    · intro hS
      simp only [Hook.ParseJSONParameters, hargs, parseJSONParametersLoop, hget, hdec, hsel, hrep]
      simp [hS, SourceHeader, SourcePayload, SourceQuery, parseJSONParametersLoop]
    · intro hS
      simp only [Hook.ParseJSONParameters, hargs, parseJSONParametersLoop, hget, hdec, hsel, hrep]
      simp [hS, SourceHeader, SourcePayload, SourceQuery, parseJSONParametersLoop]
    · intro hS
      simp only [Hook.ParseJSONParameters, hargs, parseJSONParametersLoop, hget, hdec, hsel, hrep]
      simp [hS, SourceHeader, SourcePayload, SourceQuery, parseJSONParametersLoop]

/-- Witness for the amended C10: a hook with one JSON-decode payload
argument with the dot-free name `a`, over the payload `{a: "{\"c\": 1}"}`,
splices successfully and returns nil with the payload tree updated. -/
theorem c10_witness :
    Hook.ParseJSONParameters { JSONStringParameters := [⟨"payload", "a"⟩] }
      none none (some [("a", Value.str ("\x7b\"c\": 1\x7d"))])
      = some (none, (none, none, some [("a", Value.map [("c", Value.num 1)])])) := by
  have hspr : sprintfV (Value.str ("\x7b\"c\": 1\x7d")) = "\x7b\"c\": 1\x7d" := by
    simp [sprintfV]
  have hget : Argument.Get ⟨"payload", "a"⟩ none none
      (some [("a", Value.str ("\x7b\"c\": 1\x7d"))])
      = some (sprintfV (Value.str ("\x7b\"c\": 1\x7d")), true) := rfl
  rw [hspr] at hget
  have h := (c10_amended { JSONStringParameters := [⟨"payload", "a"⟩] } ⟨"payload", "a"⟩
      none none (some [("a", Value.str ("\x7b\"c\": 1\x7d"))])
      ("\x7b\"c\": 1\x7d") [("c", Value.num 1)] [("a", Value.str ("\x7b\"c\": 1\x7d"))]
      rfl hget rfl rfl).2 (("a").data) rfl
  exact h.2.2.1 rfl

end Webhook

